import Mathlib

/-!
Verification of the orchestration core of the image-toolbox repository
(src/components/ImageCompressor.vue). The script-setup section of that
component is shallowly embedded below: JavaScript strings stay `String`,
JavaScript numbers become `ℚ`, optional JSON fields become `Option`,
thrown exceptions become `Except`, and the external collaborators
(Tauri path join, filesystem, ffmpeg, git) become explicit parameters
bundled in an `Env` record. The bounded worker pool of `processTask`
(the two successive pool-draining loops) is embedded as an explicit
small-step scheduler so that interleavings of job completions with the
main coroutine can be examined.
-/

namespace ImageToolbox

/-- Log severity, mirroring the `type` field of the component's log entries
(`'info' | 'success' | 'error'`). The wall-clock timestamp is dropped. -/
inductive LogType
  | info
  | success
  | error
deriving DecidableEq, Repr

/-- One log entry pushed by `addLog` (message and severity). -/
structure LogEvent where
  msg : String
  type : LogType
deriving DecidableEq, Repr

/-- Result of `Command.execute()` for an external process
(exit code plus captured stdout / stderr). -/
structure CmdOutput where
  code : Int
  stdout : String
  stderr : String
deriving DecidableEq, Repr

/-- A directory entry as returned by the Tauri `readDir` plugin call;
only the fields the component reads (`name`, `isDirectory`). -/
structure FileEntry where
  name : String
  isDirectory : Bool
deriving DecidableEq, Repr

/-- The reactive `config` record of the component: the live manual settings
(also the shape of every task config, since `runAllProfiles` builds task
configs as `{ ...config }`). Numeric fields are JavaScript numbers,
embedded as `ℚ`. -/
structure Config where
  inputFolder : String
  outputFolder : String
  resizeMethod : String
  width : ℚ
  height : ℚ
  scaleFactor : ℚ
  format : String
  fixedMode : String
deriving DecidableEq, Repr

/-- The initial value of the reactive `config` record
(lines 43-52 of the component). -/
def manualDefaults : Config :=
  { inputFolder := ""
    outputFolder := ""
    resizeMethod := "fixed"
    width := 1920
    height := 1080
    scaleFactor := 1/2
    format := "png"
    fixedMode := "crop" }

/-- The `Profile` interface: every field optional, mirroring a JSON
profile record loaded from the configuration file. -/
structure Profile where
  enable : Option Bool := none
  description : Option String := none
  input_folder : Option String := none
  output_folder : Option String := none
  format : Option String := none
  resize_method : Option String := none
  width : Option ℚ := none
  height : Option ℚ := none
  scale_factor : Option ℚ := none
  fixed_mode : Option String := none
deriving DecidableEq, Repr

/-- A queued batch task (the `BatchTask` interface of the component). -/
structure BatchTask where
  name : String
  config : Config
  description : Option String
  isGitInput : Bool
  isGitOutput : Bool
  enableGitInput : Bool
  enableGitOutput : Bool
deriving DecidableEq, Repr

/-- JavaScript truthiness of an optional string field
(`undefined` and the empty string are falsy). -/
def truthyStr : Option String → Bool
  | none => false
  | some s => !s.isEmpty

/-- JavaScript truthiness of an optional numeric field
(`undefined` and `0` are falsy). -/
def truthyNum : Option ℚ → Bool
  | none => false
  | some q => !(q == 0)

/-- JavaScript `s.includes(sub)`: substring containment. -/
def jsIncludes (s sub : String) : Bool :=
  decide (sub.data <:+: s.data)

/-- The regex test `relative.match(/^[a-zA-Z]:\\/i)` of `resolvePath`
(line 99): first character an ASCII letter, then a colon, then a
backslash. -/
def matchDriveRootRegex (s : String) : Bool :=
  match s.data with
  | d :: c :: sep :: _ => d.isAlpha && c == ':' && sep == '\\'
  | _ => false

/-- JavaScript `s.startsWith('/')` embedded on the character list:
true exactly when the first character is a slash. -/
def startsWithSlash (s : String) : Bool :=
  match s.data with
  | c :: _ => c == '/'
  | _ => false

/-- `resolvePath(base, relative)` (lines 98-101): return `relative`
unchanged when the drive-letter regex matches or it starts with a slash,
otherwise `join(base, relative)`. The Tauri `join` collaborator is a
parameter. -/
def resolvePath (join : String → String → String) (base rel : String) : String :=
  if matchDriveRootRegex rel || startsWithSlash rel then rel else join base rel

/-- Spec-side predicate, following the spec's words: a path is
drive-letter-rooted when it begins with a drive letter, a colon and the
(backslash) separator. Stated via `List.take` so it is not a literal
copy of the source's regex embedding. -/
def driveLetterRooted (s : String) : Bool :=
  match s.data.take 3 with
  | [d, c, sep] => d.isAlpha && c == ':' && sep == '\\'
  | _ => false

/-- Spec-side predicate: root-rooted (POSIX absolute) path — the path
begins with the root separator. -/
def rootRooted (s : String) : Bool :=
  s.data.take 1 == ['/']

/-- Spec-side predicate: absolute under the host path syntax,
drive-letter-rooted or root-rooted. -/
def absoluteUnderHostSyntax (s : String) : Bool :=
  driveLetterRooted s || rootRooted s

/-- The resize-method part of the sparse override performed by
`runAllProfiles` (lines 427-437): only applied when `resize_method` is
truthy; width / height / fixed_mode only under the `'fixed'` branch and
only when themselves truthy, scale_factor only under `'ratio'`. -/
def applyResizeOverride (t : Config) (p : Profile) : Config :=
  if truthyStr p.resize_method then
    if p.resize_method == some "fixed" then
      let t1 := { t with resizeMethod := "fixed" }
      let t2 := if truthyNum p.width then { t1 with width := p.width.getD t1.width } else t1
      let t3 := if truthyNum p.height then { t2 with height := p.height.getD t2.height } else t2
      if truthyStr p.fixed_mode then { t3 with fixedMode := p.fixed_mode.getD t3.fixedMode } else t3
    else if p.resize_method == some "ratio" then
      let t1 := { t with resizeMethod := "ratio" }
      if truthyNum p.scale_factor then { t1 with scaleFactor := p.scale_factor.getD t1.scaleFactor } else t1
    else t
  else t

/-- Building one task config inside `runAllProfiles` (lines 424-440):
start from a copy of the manual `config`, sparse-override format, the
resize block, then the two folders (resolved against the configuration
file's directory when supplied). -/
def buildTaskConfig (join : String → String → String) (baseDir : String)
    (cfg : Config) (p : Profile) : Config :=
  let t0 := cfg
  let t1 := if truthyStr p.format then { t0 with format := p.format.getD t0.format } else t0
  let t2 := applyResizeOverride t1 p
  let t3 := if truthyStr p.input_folder then
      { t2 with inputFolder := resolvePath join baseDir (p.input_folder.getD "") } else t2
  if truthyStr p.output_folder then
    { t3 with outputFolder := resolvePath join baseDir (p.output_folder.getD "") } else t3

/-- External collaborators of the component, bundled: filesystem probes
(`exists`, `mkdir`, `readDir`), the Tauri path `join`, and the spawned
`ffmpeg` and `git` commands. An `Except.error` models a thrown
exception; a returned `CmdOutput` with non-zero code models a spawned
process that ran and failed. -/
structure Env where
  pathExists : String → Bool
  mkdir : String → Except String Unit
  readDir : String → Except String (List FileEntry)
  join : String → String → String
  ffmpeg : List String → Except String CmdOutput
  git : List String → Except String CmdOutput

/-- `checkGitRepo(path)` (lines 104-112): run
`git -C path rev-parse --is-inside-work-tree`; any exception yields
`false`, otherwise require exit code 0 and trimmed stdout `true`. -/
def checkGitRepo (env : Env) (path : String) : Bool :=
  match env.git ["-C", path, "rev-parse", "--is-inside-work-tree"] with
  | .error _ => false
  | .ok out => out.code == 0 && out.stdout.trim == "true"

/-- Which git sub-commands `executeGitOps` actually runs. -/
inductive GitCmd
  | add
  | commit
  | push
deriving DecidableEq, Repr

/-- The commit message fragment git prints when there is nothing to commit. -/
def ntcMsg : String := "nothing to commit"

/-- Core of `executeGitOps` (lines 114-143), abstracted over the three
command results: returns the sub-commands attempted (in order) and the
log events produced. The add result's exit code is ignored (only a
thrown exception from it reaches the catch); when the commit fails with
"nothing to commit" in stdout or stderr the function logs an info entry
and returns early, so push is not attempted; any thrown exception is
caught and logged. -/
def gitOpsCore (path : String) (addRes commitRes pushRes : Except String CmdOutput) :
    List GitCmd × List LogEvent :=
  let start : LogEvent := ⟨"正在执行 Git 操作: " ++ path, .info⟩
  match addRes with
  | .error e => ([.add], [start, ⟨"Git 操作异常: " ++ e, .error⟩])
  | .ok _ =>
    match commitRes with
    | .error e => ([.add, .commit], [start, ⟨"Git 操作异常: " ++ e, .error⟩])
    | .ok c =>
      if c.code != 0 && (jsIncludes c.stdout ntcMsg || jsIncludes c.stderr ntcMsg) then
        ([.add, .commit], [start, ⟨"Git: 没有需要提交的更改", .info⟩])
      else
        let commitLog : LogEvent :=
          if c.code != 0 then ⟨"Git Commit 失败: " ++ c.stderr, .error⟩
          else ⟨"Git Commit 成功", .success⟩
        match pushRes with
        | .error e => ([.add, .commit, .push], [start, commitLog, ⟨"Git 操作异常: " ++ e, .error⟩])
        | .ok p =>
          ([.add, .commit, .push],
           [start, commitLog,
            if p.code == 0 then ⟨"Git Push 成功", .success⟩
            else ⟨"Git Push 失败: " ++ p.stderr, .error⟩])

/-- `executeGitOps(path, msg)`: instantiate the core with the concrete
`git -C path add .` / `commit -m msg` / `push` invocations of the
environment. (The push result is passed lazily as a value; the core
only consults it on the branches where the source actually runs push.) -/
def executeGitOps (env : Env) (path msg : String) : List GitCmd × List LogEvent :=
  gitOpsCore path
    (env.git ["-C", path, "add", "."])
    (env.git ["-C", path, "commit", "-m", msg])
    (env.git ["-C", path, "push"])

/-- A single step of an ffmpeg filter chain, as the spec describes the
three transforms: an aspect-preserving uniform scale with the
high-quality (lanczos) filter; an aspect-preserving scale that covers
the target box; an aspect-preserving scale that fits inside the target
box; a center crop to the target box (ffmpeg's `crop=w:h` with the
position arguments omitted defaults to the center); a center pad of the
shortfall with a fully transparent fill (`color=0x00000000` is RGBA
with alpha 0). -/
inductive FilterStep
  | scaleUniform (factor : ℚ)
  | scaleCover (tw th : ℚ)
  | scaleFit (tw th : ℚ)
  | cropCenter (tw th : ℚ)
  | padCenterTransparent (tw th : ℚ)
deriving DecidableEq, Repr

/-- Render one filter step to ffmpeg `-vf` syntax. `showQ` is the
JavaScript number-to-string conversion used by the template literals. -/
def renderStep (showQ : ℚ → String) : FilterStep → String
  | .scaleUniform f => "scale=iw*" ++ showQ f ++ ":-1:flags=lanczos"
  | .scaleCover tw th =>
      "scale=" ++ showQ tw ++ ":" ++ showQ th ++ ":force_original_aspect_ratio=increase:flags=lanczos"
  | .scaleFit tw th =>
      "scale=" ++ showQ tw ++ ":" ++ showQ th ++ ":force_original_aspect_ratio=decrease:flags=lanczos"
  | .cropCenter tw th => "crop=" ++ showQ tw ++ ":" ++ showQ th
  | .padCenterTransparent tw th =>
      "pad=" ++ showQ tw ++ ":" ++ showQ th ++ ":(ow-iw)/2:(oh-ih)/2:color=0x00000000"

/-- Render a comma-separated chain of filter steps. -/
def renderChain (showQ : ℚ → String) : List FilterStep → String
  | [] => ""
  | [st] => renderStep showQ st
  | st :: rest => renderStep showQ st ++ "," ++ renderChain showQ rest

/-- Spec-side reference transform, written from the spec's words:
ratio mode is a uniform scale by the scale factor; fixed+crop is
cover-scale then center-crop to exactly the target box; fixed+pad is
fit-scale then center-pad with a transparent fill to exactly the
target box. -/
def specTransformChain (cfg : Config) : List FilterStep :=
  if cfg.resizeMethod == "ratio" then
    [.scaleUniform cfg.scaleFactor]
  else if cfg.fixedMode == "crop" then
    [.scaleCover cfg.width cfg.height, .cropCenter cfg.width cfg.height]
  else
    [.scaleFit cfg.width cfg.height, .padCenterTransparent cfg.width cfg.height]

/-- Idealised dimension semantics of one filter step on a (width,
height) pair of positive rationals. Cover-scaling multiplies both
sides by the larger of the two target ratios, fit-scaling by the
smaller; crop requires the image to already cover the box and yields
exactly the box; pad requires the image to fit inside the box and
yields exactly the box. A `none` marks a combination the step cannot
handle. -/
def stepDims : FilterStep → ℚ × ℚ → Option (ℚ × ℚ)
  | .scaleUniform f, (w, h) => some (w * f, h * f)
  | .scaleCover tw th, (w, h) =>
      if w = 0 ∨ h = 0 then none
      else some (w * max (tw / w) (th / h), h * max (tw / w) (th / h))
  | .scaleFit tw th, (w, h) =>
      if w = 0 ∨ h = 0 then none
      else some (w * min (tw / w) (th / h), h * min (tw / w) (th / h))
  | .cropCenter tw th, (w, h) => if tw ≤ w ∧ th ≤ h then some (tw, th) else none
  | .padCenterTransparent tw th, (w, h) => if w ≤ tw ∧ h ≤ th then some (tw, th) else none

/-- Dimension semantics of a whole chain. -/
def chainDims (steps : List FilterStep) (d : ℚ × ℚ) : Option (ℚ × ℚ) :=
  steps.foldl (fun acc st => acc.bind (stepDims st)) (some d)

/-- The single `filterString` built by `processTask` (lines 312-321),
embedded from the source's template literals: ratio mode when
`resizeMethod === 'ratio'`, otherwise crop when `fixedMode === 'crop'`,
otherwise pad. -/
def filterString (showQ : ℚ → String) (cfg : Config) : String :=
  if cfg.resizeMethod == "ratio" then
    "scale=iw*" ++ showQ cfg.scaleFactor ++ ":-1:flags=lanczos"
  else if cfg.fixedMode == "crop" then
    "scale=" ++ showQ cfg.width ++ ":" ++ showQ cfg.height
      ++ ":force_original_aspect_ratio=increase:flags=lanczos,crop="
      ++ showQ cfg.width ++ ":" ++ showQ cfg.height
  else
    "scale=" ++ showQ cfg.width ++ ":" ++ showQ cfg.height
      ++ ":force_original_aspect_ratio=decrease:flags=lanczos,pad="
      ++ showQ cfg.width ++ ":" ++ showQ cfg.height
      ++ ":(ow-iw)/2:(oh-ih)/2:color=0x00000000"

/-- The recognized input extensions (line 301). -/
def validExtensions : List String :=
  [".png", ".jpg", ".jpeg", ".bmp", ".webp"]

/-- The eligibility filter of line 302 on a single name:
`validExtensions.some(ext => name.toLowerCase().endsWith(ext))`. -/
def isValidImageName (name : String) : Bool :=
  validExtensions.any fun ext => name.toLower.endsWith ext

/-- JavaScript `name.substring(0, name.lastIndexOf('.'))`: everything
before the last dot, or the empty string when there is no dot
(`lastIndexOf` returns -1 and `substring(0, -1)` is empty). -/
def stemOf (s : String) : String :=
  ⟨((s.data.reverse.dropWhile fun c => !(c == '.')).drop 1).reverse⟩

/-- The per-format quality arguments of `processFile` (lines 334-339). -/
def qualityArgs (format : String) : List String :=
  if format == "jpg" || format == "jpeg" then ["-q:v", "1"]
  else if format == "webp" then ["-q:v", "100"]
  else []

/-- The full ffmpeg argument list of `processFile` (line 341). -/
def ffmpegArgs (env : Env) (showQ : ℚ → String) (cfg : Config) (fname : String) : List String :=
  let inputPath := env.join cfg.inputFolder fname
  let outputPath := env.join cfg.outputFolder (stemOf fname ++ "." ++ cfg.format)
  ["-y", "-v", "error", "-i", inputPath, "-vf", filterString showQ cfg]
    ++ qualityArgs cfg.format ++ [outputPath]

/-- One `processFile` invocation (lines 327-356): run ffmpeg, log
success on exit code 0, an error log with the captured stderr on a
non-zero code, and an error log on a thrown exception. The whole body
is inside try/catch/finally, so a single file's failure never
propagates. -/
def processFileJob (env : Env) (showQ : ℚ → String) (cfg : Config)
    (taskName fname : String) : LogEvent :=
  match env.ffmpeg (ffmpegArgs env showQ cfg fname) with
  | .ok out =>
      if out.code == 0 then ⟨"[" ++ taskName ++ "] 处理成功: " ++ fname, .success⟩
      else ⟨"[" ++ taskName ++ "] 失败: " ++ fname ++ " - " ++ out.stderr, .error⟩
  | .error e => ⟨"[" ++ taskName ++ "] 异常: " ++ fname ++ " - " ++ e, .error⟩

/-- Sequential projection of `processTask` (lines 288-398). Control
flow is embedded faithfully: empty input/output path is logged and the
task returns normally; a missing output directory is created (a thrown
mkdir failure propagates); `readDir` of the input folder propagates its
exception; no eligible files is logged and the task returns; otherwise
every eligible file is handed to `processFile` twice, once by the
leftover first pool loop (lines 358-371) and once by the set-based loop
(lines 373-386) — per-file failures are caught inside `processFile`, so
their scheduling cannot affect which exceptions escape, and the file
jobs are serialized here in submission order. Afterwards the git
side-effects run per the task's toggles. The result is the log
sequence, or the escaping exception. -/
def processTask (env : Env) (showQ : ℚ → String) (cfg : Config) (taskName : String)
    (gitInput gitOutput : Bool) : Except String (List LogEvent) :=
  let l0 := [(⟨"[" ++ taskName ++ "] 开始任务...", .info⟩ : LogEvent)]
  if cfg.inputFolder.isEmpty || cfg.outputFolder.isEmpty then
    .ok (l0 ++ [⟨"[" ++ taskName ++ "] 路径未配置，跳过", .error⟩])
  else
    match (if env.pathExists cfg.outputFolder then Except.ok () else env.mkdir cfg.outputFolder) with
    | .error e => .error e
    | .ok _ =>
      match env.readDir cfg.inputFolder with
      | .error e => .error e
      | .ok entries =>
        let files := entries.filter fun en => !en.isDirectory && isValidImageName en.name
        if files.isEmpty then
          .ok (l0 ++ [⟨"[" ++ taskName ++ "] 无图片文件", .error⟩])
        else
          let l1 := l0 ++ [⟨"[" ++ taskName ++ "] 发现 " ++ toString files.length ++ " 个文件", .info⟩]
          let jobLogs := (files ++ files).map fun f => processFileJob env showQ cfg taskName f.name
          let g1 := if gitInput && checkGitRepo env cfg.inputFolder then
              (executeGitOps env cfg.inputFolder ("Auto-commit input: " ++ taskName)).2 else []
          let g2 := if gitOutput && checkGitRepo env cfg.outputFolder then
              (executeGitOps env cfg.outputFolder ("Auto-commit output: " ++ taskName)).2 else []
          .ok (l1 ++ jobLogs ++ g1 ++ g2)

/-- `executeBatch` (lines 470-489): run the queued tasks in order
inside a single try/catch. Returns the names of the tasks that were
attempted together with the accumulated log. A task whose `processTask`
throws jumps to the catch, which logs the batch-level error message —
the remaining tasks of the batch are never started. -/
def executeBatchFrom (env : Env) (showQ : ℚ → String) : List BatchTask → List String × List LogEvent
  | [] => ([], [⟨"所有批量任务执行完毕", .success⟩])
  | t :: rest =>
    match processTask env showQ t.config t.name t.enableGitInput t.enableGitOutput with
    | .error e => ([t.name], [⟨"批量执行异常: " ++ e, .error⟩])
    | .ok logs =>
      let tail := executeBatchFrom env showQ rest
      (t.name :: tail.1, logs ++ tail.2)

/-- `runAllProfiles` batch construction (lines 422-456): walk the
profile entries in insertion order, skip those with `enable === false`,
build each remaining task config by sparse override, probe both
resolved folders for git repositories, and queue the task with both
git toggles off. -/
def buildBatch (env : Env) (baseDir : String) (cfg : Config)
    (profiles : List (String × Profile)) : List BatchTask :=
  profiles.filterMap fun np =>
    if np.2.enable == some false then none
    else
      let tc := buildTaskConfig env.join baseDir cfg np.2
      some { name := np.1
             config := tc
             description := np.2.description
             isGitInput := checkGitRepo env tc.inputFolder
             isGitOutput := checkGitRepo env tc.outputFolder
             enableGitInput := false
             enableGitOutput := false }

/-- A parsed JSON value, as produced by `JSON.parse`. -/
inductive Json
  | null
  | bool (b : Bool)
  | num (q : ℚ)
  | str (s : String)
  | arr (xs : List Json)
  | obj (fields : List (String × Json))

/-- JavaScript `typeof data === 'object'`: true for objects, arrays and
`null`. -/
def typeofIsObject : Json → Bool
  | .null => true
  | .arr _ => true
  | .obj _ => true
  | _ => false

/-- JavaScript `Object.keys(data)`: field names of an object, index
strings of an array, the empty list for other primitives — and a thrown
TypeError for `null`. -/
def jsObjectKeys : Json → Except Unit (List String)
  | .null => .error ()
  | .obj fields => .ok (fields.map Prod.fst)
  | .arr xs => .ok ((List.range xs.length).map toString)
  | _ => .ok []

/-- The slice of component state `loadConfigFile` touches: the
`profiles` ref (kept as raw parsed JSON, since the source assigns the
parsed value directly), the config file path, the active profile name,
the log list, and a count of `console.error` calls from the catch
block. -/
structure LoadState where
  profiles : Json
  configFilePath : String
  activeProfile : String
  logs : List LogEvent
  consoleErrors : Nat

/-- `loadConfigFile(path)` (lines 180-200). `fileExists` is the result
of the `exists(path)` probe; `readParse` is the combined result of
`readTextFile` + `JSON.parse` (either may throw, both failures land in
the same catch, which calls `console.error` and nothing else). When the
parse result is object-typed the profiles ref and the config file path
are assigned, then `Object.keys` runs (throwing — caught — for `null`),
and a success log plus active profile are set only when there is at
least one key. When the file does not exist, or the data is not
object-typed, the function does nothing at all. -/
def loadConfigFile (st : LoadState) (path : String) (fileExists : Bool)
    (readParse : Except Unit Json) : LoadState :=
  if fileExists then
    match readParse with
    | .error _ => { st with consoleErrors := st.consoleErrors + 1 }
    | .ok data =>
      if typeofIsObject data then
        let st1 := { st with profiles := data, configFilePath := path }
        match jsObjectKeys data with
        | .error _ => { st1 with consoleErrors := st1.consoleErrors + 1 }
        | .ok keys =>
          match keys with
          | [] => st1
          | k :: _ =>
            { st1 with activeProfile := k
                       logs := st1.logs ++ [⟨"已加载配置文件: " ++ path, .success⟩] }
      else st
  else st

/-- Where the main coroutine of `processTask`'s pool section (lines
323-386) is suspended or running:
in the first (race-based) loop; awaiting `Promise.race(activePromises)`
inside it; in the second (set-based) loop; awaiting
`Promise.race(executing)` inside it; awaiting `Promise.all(results)`;
or finished. -/
inductive Phase
  | loopOne
  | raceOne
  | loopTwo
  | raceTwo
  | awaitAll
  | finished
deriving DecidableEq, Repr

/-- Scheduler state for the pool section of `processTask`, for a task
with `n` eligible files. A job is a pair (second-loop?, file index);
both loops hand every file index to `processFile`. `i1` and `i2` count
submissions from each loop. `inFlight` holds submitted, not yet
completed jobs — the files currently in `processing` state. `doneL1`
and `doneL2` record completed jobs of each loop; `executing` mirrors
the second loop's `executing` set (jobs remove themselves from it on
completion); `submissions` logs every `processFile` call in order.
`activePromises` of loop one is the list of all loop-one jobs submitted
so far — it is never shrunk by the source, so the race of loop one can
resume as soon as any loop-one job has ever completed. -/
structure PoolState where
  n : Nat
  i1 : Nat
  i2 : Nat
  phase : Phase
  inFlight : List (Bool × Nat)
  doneL1 : List Nat
  doneL2 : List Nat
  executing : List Nat
  submissions : List (Bool × Nat)
deriving DecidableEq, Repr

/-- Initial scheduler state: about to run the first loop. -/
def initPool (n : Nat) : PoolState :=
  { n := n, i1 := 0, i2 := 0, phase := .loopOne
    inFlight := [], doneL1 := [], doneL2 := [], executing := [], submissions := [] }

/-- The pool ceiling (line 324). -/
def CONCURRENCY_LIMIT : Nat := 4

/-- Advance the main coroutine by one step, if it is not blocked.
First loop (lines 358-371): submit the next file's `processFile` and
await `Promise.race(activePromises)` whenever the ever-growing
`activePromises` has reached the limit; the race resolves as soon as
some loop-one job (possibly long settled — the array is never pruned)
has completed. Second loop (lines 377-385): submit the next file again,
adding it to `executing`, and await `Promise.race(executing)` when
`executing` reaches the limit; that race resolves when a member
completes (completion removes it from the set). Then
`await Promise.all(results)` waits for all second-loop jobs (the
`results` array only collects second-loop promises). -/
def mainStep (s : PoolState) : Option PoolState :=
  match s.phase with
  | .loopOne =>
    if s.i1 < s.n then
      some { s with i1 := s.i1 + 1
                    inFlight := s.inFlight ++ [(false, s.i1)]
                    submissions := s.submissions ++ [(false, s.i1)]
                    phase := if s.i1 + 1 ≥ CONCURRENCY_LIMIT then .raceOne else .loopOne }
    else some { s with phase := .loopTwo }
  | .raceOne => if s.doneL1.isEmpty then none else some { s with phase := .loopOne }
  | .loopTwo =>
    if s.i2 < s.n then
      some { s with i2 := s.i2 + 1
                    inFlight := s.inFlight ++ [(true, s.i2)]
                    executing := s.executing ++ [s.i2]
                    submissions := s.submissions ++ [(true, s.i2)]
                    phase := if s.executing.length + 1 ≥ CONCURRENCY_LIMIT then .raceTwo else .loopTwo }
    else some { s with phase := .awaitAll }
  | .raceTwo =>
    if s.executing.length < CONCURRENCY_LIMIT then some { s with phase := .loopTwo } else none
  | .awaitAll =>
    if s.doneL2.length == s.n then some { s with phase := .finished } else none
  | .finished => none

/-- An in-flight ffmpeg invocation completes: it leaves `inFlight`, is
recorded as done for its loop, and a second-loop job deletes itself
from the `executing` set (the `.then` attached at submission). -/
def finishStep (s : PoolState) (j : Bool × Nat) : Option PoolState :=
  if j ∈ s.inFlight then
    some { s with inFlight := s.inFlight.erase j
                  doneL1 := if j.1 then s.doneL1 else s.doneL1 ++ [j.2]
                  doneL2 := if j.1 then s.doneL2 ++ [j.2] else s.doneL2
                  executing := if j.1 then s.executing.erase j.2 else s.executing }
  else none

/-- One scheduler action: advance the main coroutine, or complete an
in-flight job. -/
inductive PoolAct
  | main
  | finish (j : Bool × Nat)
deriving DecidableEq, Repr

/-- Run a schedule of actions from a state; `none` when some action was
not enabled at its turn. -/
def runPool (s : PoolState) : List PoolAct → Option PoolState
  | [] => some s
  | a :: rest =>
    match (match a with | .main => mainStep s | .finish j => finishStep s j) with
    | none => none
    | some s2 => runPool s2 rest

/-- A trivial number renderer for concrete runs (the filter string's
numeric rendering is irrelevant to control flow). -/
def showQ0 : ℚ → String := fun _ => ""

/-- Concrete environment for batch-abort runs: output directory `OUT`
exists; directory `B` holds one image; any other directory (in
particular `A`) does not exist, so `readDir` throws on it; ffmpeg
always succeeds; git reports a non-repository. -/
def cexEnvC2 : Env :=
  { pathExists := fun p => p == "OUT"
    mkdir := fun _ => .ok ()
    readDir := fun p => if p == "B" then .ok [⟨"pic.png", false⟩]
               else .error ("path not found: " ++ p)
    join := fun a b => a ++ "/" ++ b
    ffmpeg := fun _ => .ok ⟨0, "", ""⟩
    git := fun _ => .ok ⟨1, "", "not a git repository"⟩ }

/-- A queued task whose input directory `A` does not exist. -/
def taskMissingInput : BatchTask :=
  { name := "A"
    config := { manualDefaults with inputFolder := "A", outputFolder := "OUT" }
    description := none
    isGitInput := false, isGitOutput := false
    enableGitInput := false, enableGitOutput := false }

/-- A healthy queued task reading the existing directory `B`. -/
def taskHealthy : BatchTask :=
  { name := "B"
    config := { manualDefaults with inputFolder := "B", outputFolder := "OUT" }
    description := none
    isGitInput := false, isGitOutput := false
    enableGitInput := false, enableGitOutput := false }

/-- A successful command result. -/
def okOut : CmdOutput := ⟨0, "", ""⟩

/-- The commit result git produces on a clean tree: exit code 1 and the
"nothing to commit" notice on stdout. -/
def ntcOut : CmdOutput := ⟨1, "On branch main\nnothing to commit, working tree clean", ""⟩

/-- A store state left by an earlier successful load: one profile in
the mapping, nothing logged yet. -/
def preloadedState : LoadState :=
  { profiles := Json.obj [("portrait", Json.obj [])]
    configFilePath := "C:\\imgs\\settings.json"
    activeProfile := "portrait"
    logs := []
    consoleErrors := 0 }

/-- Schedule for a task with one eligible file, run to completion:
the first loop submits the file (1 < 4, no race), the second loop
submits it again, both invocations complete, and the final await
resolves. -/
def oneFileSched : List PoolAct :=
  [.main, .main, .main, .main, .finish (false, 0), .finish (true, 0), .main]

/-- Schedule for a task with five eligible files reaching five
simultaneous in-flight invocations: the first loop submits files 0-3
and blocks on its race; file 0 completes; the race resolves (and keeps
resolving instantly, since the settled promise is never removed from
the array), so file 4 is submitted and the loop exits; the second loop
then submits file 0 again while files 1-4 are still in flight. -/
def fiveFileSched : List PoolAct :=
  [.main, .main, .main, .main, .finish (false, 0), .main, .main, .main, .main, .main]

/-! Theorems. -/

/-- C1: for every task run, each eligible input file is submitted to
the transcode pool exactly once and reaches a terminal status exactly
once; the earlier race-based pool-draining loop is dead logic that
submits no jobs. REFUTED BY THE CODE: in a completed run of a task with
a single eligible file, the run finishes with file 0 submitted twice —
the first submission `(false, 0)` comes from the supposedly dead first
loop, the second `(true, 0)` from the set-based loop — so the file's
`processFile` body (ffmpeg invocation, logging, progress increment)
executes twice, not once. -/
theorem claim1_code_submits_each_file_twice :
    (runPool (initPool 1) oneFileSched).map (fun s => (s.phase, s.submissions))
      = some (Phase.finished, [(false, 0), (true, 0)]) := by
  rfl

/-- C3: for a task with more than 4 eligible files, no instant has more
than 4 files simultaneously in flight. REFUTED BY THE CODE: with five
eligible files there is a reachable scheduler state with five
simultaneous in-flight invocations (one more than the pool limit),
because the first loop's race resolves instantly once any settled
promise sits in the never-pruned `activePromises` array, and the second
loop's submissions overlap the first loop's still-running jobs. -/
theorem claim3_pool_limit_exceeded_with_five_files :
    (runPool (initPool 5) fiveFileSched).map (fun s => s.inFlight.length)
      = some (CONCURRENCY_LIMIT + 1) := by
  rfl

/-- C4 counterexample: when the commit sub-step reports "nothing to
commit" (non-zero exit, notice on stdout), the push sub-step is NOT
attempted — `executeGitOps` returns early. -/
theorem claim4_counterexample :
    GitCmd.push ∉ (gitOpsCore "repo" (.ok okOut) (.ok ntcOut) (.ok okOut)).1 := by
  decide

/-- C4 (amended): whenever the git commit sub-step exits non-zero and
reports "nothing to commit", the sync is treated as a successful no-op
— an info entry is logged and no error is recorded for that directory —
but `executeGitOps` returns early, so the push sub-step is skipped. -/
theorem claim4_nothing_to_commit_is_noop_but_skips_push
    (path : String) (a c p : CmdOutput)
    (h1 : c.code ≠ 0)
    (h2 : (jsIncludes c.stdout ntcMsg || jsIncludes c.stderr ntcMsg) = true) :
    gitOpsCore path (.ok a) (.ok c) (.ok p)
      = ([GitCmd.add, GitCmd.commit],
         [⟨"正在执行 Git 操作: " ++ path, .info⟩, ⟨"Git: 没有需要提交的更改", .info⟩]) := by
  unfold gitOpsCore
  have hb : (c.code != 0) = true := by simpa [bne_iff_ne] using h1
  simp [hb, h2]

/-- C4 witness: the amended statement at a concrete clean-tree commit
result. -/
theorem claim4_witness :
    gitOpsCore "repo" (.ok okOut) (.ok ntcOut) (.ok okOut)
      = ([GitCmd.add, GitCmd.commit],
         [⟨"正在执行 Git 操作: " ++ "repo", .info⟩, ⟨"Git: 没有需要提交的更改", .info⟩]) :=
  claim4_nothing_to_commit_is_noop_but_skips_push "repo" okOut ntcOut okOut
    (by decide) (by decide)

/-- C5 counterexample: loading a configuration file that does not exist
is a complete no-op — nothing is logged (neither in the app log nor on
the console) and the store's profile mapping is left at its previous
non-empty value, not empty. -/
theorem claim5_counterexample :
    loadConfigFile preloadedState "C:\\missing\\settings.json" false (.ok Json.null)
        = preloadedState
      ∧ preloadedState.logs = []
      ∧ preloadedState.consoleErrors = 0
      ∧ preloadedState.profiles ≠ Json.obj [] := by
  refine ⟨rfl, rfl, rfl, ?_⟩
  intro h
  simp [preloadedState] at h

/-- C5 (amended): a failed configuration load never propagates as a
crash, but a missing file is a silent no-op (no log of any kind, state
untouched), while a read or parse exception is logged to the console
only; in both cases the store's profile mapping is left unchanged — it
is not emptied. -/
theorem claim5_failed_load_leaves_mapping_unchanged :
    (∀ (st : LoadState) (path : String) (rp : Except Unit Json),
        loadConfigFile st path false rp = st)
    ∧ (∀ (st : LoadState) (path : String),
        (loadConfigFile st path true (.error ())).profiles = st.profiles
        ∧ (loadConfigFile st path true (.error ())).logs = st.logs
        ∧ (loadConfigFile st path true (.error ())).consoleErrors = st.consoleErrors + 1) := by
  exact ⟨fun st path rp => rfl, fun st path => ⟨rfl, rfl, rfl⟩⟩

/-- C2 counterexample: in a two-task batch whose first task has a
non-existent input directory, only the first task is attempted — the
exception thrown by directory enumeration is caught at the batch level,
and the healthy second task `B` is never started, contradicting the
claim that every remaining task in the batch is still attempted. -/
theorem claim2_counterexample :
    (executeBatchFrom cexEnvC2 showQ0 [taskMissingInput, taskHealthy]).1 = ["A"]
      ∧ "B" ∉ (executeBatchFrom cexEnvC2 showQ0 [taskMissingInput, taskHealthy]).1 := by
  refine ⟨rfl, ?_⟩
  rw [show (executeBatchFrom cexEnvC2 showQ0 [taskMissingInput, taskHealthy]).1 = ["A"] from rfl]
  decide

/-- C2 (amended): a task whose input directory does not exist throws
from directory enumeration, and the failure is not caught at the task
boundary but at the batch level: the batch loop logs the batch-level
error message and stops, so the remaining tasks of the batch are not
attempted. -/
theorem claim2_task_throw_aborts_rest_of_batch :
    (∀ (env : Env) (showQ : ℚ → String) (cfg : Config) (name : String) (gi go : Bool) (e : String),
        cfg.inputFolder.isEmpty = false → cfg.outputFolder.isEmpty = false →
        env.pathExists cfg.outputFolder = true →
        env.readDir cfg.inputFolder = .error e →
        processTask env showQ cfg name gi go = .error e)
    ∧ (∀ (env : Env) (showQ : ℚ → String) (t : BatchTask) (rest : List BatchTask) (e : String),
        processTask env showQ t.config t.name t.enableGitInput t.enableGitOutput = .error e →
        executeBatchFrom env showQ (t :: rest)
          = ([t.name], [⟨"批量执行异常: " ++ e, .error⟩])) := by
  constructor
  · intro env showQ cfg name gi go e h1 h2 h3 h4
    unfold processTask
    simp [h1, h2, h3, h4]
  · intro env showQ t rest e h
    unfold executeBatchFrom
    simp [h]

/-- C2 witness: the amended statement at the concrete two-task batch. -/
theorem claim2_witness :
    processTask cexEnvC2 showQ0 taskMissingInput.config taskMissingInput.name false false
        = .error ("path not found: " ++ "A")
      ∧ executeBatchFrom cexEnvC2 showQ0 [taskMissingInput, taskHealthy]
        = (["A"], [⟨"批量执行异常: " ++ ("path not found: " ++ "A"), .error⟩]) := by
  constructor
  · exact claim2_task_throw_aborts_rest_of_batch.1 cexEnvC2 showQ0 taskMissingInput.config
      taskMissingInput.name false false ("path not found: " ++ "A") rfl rfl rfl rfl
  · exact claim2_task_throw_aborts_rest_of_batch.2 cexEnvC2 showQ0 taskMissingInput
      [taskHealthy] ("path not found: " ++ "A") rfl

/-- When the profile's resize method is not `'fixed'`, the width field
of the task is untouched by the resize override. -/
theorem aro_width (t : Config) (p : Profile) (h : p.resize_method ≠ some "fixed") :
    (applyResizeOverride t p).width = t.width := by
  unfold applyResizeOverride
  have hb : (p.resize_method == some "fixed") = false := beq_eq_false_iff_ne.mpr h
  by_cases ht : truthyStr p.resize_method
  · simp only [ht, if_true, hb, Bool.false_eq_true, if_false]
    by_cases hr : (p.resize_method == some "ratio") = true
    · simp only [hr, if_true]
      by_cases hs : truthyNum p.scale_factor = true <;> simp [hs]
    · simp [hr]
  · simp [ht]

/-- When the profile's resize method is not `'fixed'`, the height field
of the task is untouched by the resize override. -/
theorem aro_height (t : Config) (p : Profile) (h : p.resize_method ≠ some "fixed") :
    (applyResizeOverride t p).height = t.height := by
  unfold applyResizeOverride
  have hb : (p.resize_method == some "fixed") = false := beq_eq_false_iff_ne.mpr h
  by_cases ht : truthyStr p.resize_method
  · simp only [ht, if_true, hb, Bool.false_eq_true, if_false]
    by_cases hr : (p.resize_method == some "ratio") = true
    · simp only [hr, if_true]
      by_cases hs : truthyNum p.scale_factor = true <;> simp [hs]
    · simp [hr]
  · simp [ht]

/-- When the profile's resize method is not `'fixed'`, the fixed-mode
field of the task is untouched by the resize override. -/
theorem aro_fixedMode (t : Config) (p : Profile) (h : p.resize_method ≠ some "fixed") :
    (applyResizeOverride t p).fixedMode = t.fixedMode := by
  unfold applyResizeOverride
  have hb : (p.resize_method == some "fixed") = false := beq_eq_false_iff_ne.mpr h
  by_cases ht : truthyStr p.resize_method
  · simp only [ht, if_true, hb, Bool.false_eq_true, if_false]
    by_cases hr : (p.resize_method == some "ratio") = true
    · simp only [hr, if_true]
      by_cases hs : truthyNum p.scale_factor = true <;> simp [hs]
    · simp [hr]
  · simp [ht]

/-- When the profile's resize method is not `'ratio'`, the scale-factor
field of the task is untouched by the resize override. -/
theorem aro_scaleFactor (t : Config) (p : Profile) (h : p.resize_method ≠ some "ratio") :
    (applyResizeOverride t p).scaleFactor = t.scaleFactor := by
  unfold applyResizeOverride
  have hb : (p.resize_method == some "ratio") = false := beq_eq_false_iff_ne.mpr h
  by_cases ht : truthyStr p.resize_method
  · simp only [ht, if_true]
    by_cases hf : (p.resize_method == some "fixed") = true
    · simp only [hf, if_true]
      split_ifs <;> simp
    · simp [hf, hb]
  · simp [ht]

/-- A profile with no resize method leaves the whole config unchanged
through the resize override. -/
theorem aro_of_none (t : Config) (p : Profile) (h : p.resize_method = none) :
    applyResizeOverride t p = t := by
  unfold applyResizeOverride
  simp [h, truthyStr]

/-- C10: a profile that supplies width, height, fixed_mode or
scale_factor without a resize method leaves all of them at the manual
defaults; width, height and fixed_mode are applied only when the
profile's resize method is `'fixed'`, and scale_factor only when it is
`'ratio'`. Stated contrapositively: whenever the resize method differs
from `'fixed'` the three fixed-mode parameters of the built task are
the baseline config's, and whenever it differs from `'ratio'` the
scale factor is the baseline config's. -/
theorem claim10_resize_params_gated_by_method
    (join : String → String → String) (baseDir : String) (cfg : Config) (p : Profile) :
    (p.resize_method ≠ some "fixed" →
      (buildTaskConfig join baseDir cfg p).width = cfg.width
      ∧ (buildTaskConfig join baseDir cfg p).height = cfg.height
      ∧ (buildTaskConfig join baseDir cfg p).fixedMode = cfg.fixedMode)
    ∧ (p.resize_method ≠ some "ratio" →
      (buildTaskConfig join baseDir cfg p).scaleFactor = cfg.scaleFactor) := by
  constructor
  · intro h
    unfold buildTaskConfig
    split_ifs <;>
      refine ⟨?_, ?_, ?_⟩ <;>
      simp [aro_width _ _ h, aro_height _ _ h, aro_fixedMode _ _ h]
  · intro h
    unfold buildTaskConfig
    split_ifs <;> simp [aro_scaleFactor _ _ h]

/-- C10 witness: a profile supplying width, height, fixed_mode and
scale_factor but no resize method leaves all four at the manual
defaults. -/
theorem claim10_witness :
    (buildTaskConfig (fun a b => a ++ "/" ++ b) "base" manualDefaults
        { width := some 640, height := some 480, fixed_mode := some "pad",
          scale_factor := some 2 }).width = manualDefaults.width
    ∧ (buildTaskConfig (fun a b => a ++ "/" ++ b) "base" manualDefaults
        { width := some 640, height := some 480, fixed_mode := some "pad",
          scale_factor := some 2 }).height = manualDefaults.height
    ∧ (buildTaskConfig (fun a b => a ++ "/" ++ b) "base" manualDefaults
        { width := some 640, height := some 480, fixed_mode := some "pad",
          scale_factor := some 2 }).fixedMode = manualDefaults.fixedMode
    ∧ (buildTaskConfig (fun a b => a ++ "/" ++ b) "base" manualDefaults
        { width := some 640, height := some 480, fixed_mode := some "pad",
          scale_factor := some 2 }).scaleFactor = manualDefaults.scaleFactor := by
  have h := claim10_resize_params_gated_by_method (fun a b => a ++ "/" ++ b) "base"
    manualDefaults
    { width := some 640, height := some 480, fixed_mode := some "pad", scale_factor := some 2 }
  obtain ⟨h1, h2, h3⟩ := h.1 (by decide)
  exact ⟨h1, h2, h3, h.2 (by decide)⟩

/-- C7: a profile that supplies only the format field leaves resize
method, width, height, scale factor, fixed mode and both folders of the
built task at the manual defaults — the sparse override touches only
the supplied field. -/
theorem claim7_sparse_override_only_format
    (join : String → String → String) (baseDir : String) (cfg : Config) (f : String) :
    (buildTaskConfig join baseDir cfg { format := some f }).resizeMethod = cfg.resizeMethod
    ∧ (buildTaskConfig join baseDir cfg { format := some f }).width = cfg.width
    ∧ (buildTaskConfig join baseDir cfg { format := some f }).height = cfg.height
    ∧ (buildTaskConfig join baseDir cfg { format := some f }).scaleFactor = cfg.scaleFactor
    ∧ (buildTaskConfig join baseDir cfg { format := some f }).fixedMode = cfg.fixedMode
    ∧ (buildTaskConfig join baseDir cfg { format := some f }).inputFolder = cfg.inputFolder
    ∧ (buildTaskConfig join baseDir cfg { format := some f }).outputFolder = cfg.outputFolder := by
  unfold buildTaskConfig applyResizeOverride
  simp only [truthyStr, truthyNum]
  split_ifs <;> simp_all

/-- C6: the built batch contains exactly the profiles whose enable
field is not `false`, as tasks in the profiles' insertion order — the
name sequence of the batch equals the name sequence of the enabled
profiles. -/
theorem claim6_batch_is_enabled_profiles_in_order
    (env : Env) (baseDir : String) (cfg : Config) (ps : List (String × Profile)) :
    (buildBatch env baseDir cfg ps).map BatchTask.name
      = (ps.filter fun np => !(np.2.enable == some false)).map Prod.fst := by
  induction ps with
  | nil => rfl
  | cons hd tl ih =>
    unfold buildBatch at ih ⊢
    rw [List.filterMap_cons, List.filter_cons]
    by_cases h : (hd.2.enable == some false) = true
    · simp [h]
      simpa using ih
    · simp [h]
      simpa using ih

/-- C8: `resolve(base, candidate)` returns the candidate unchanged
whenever it is absolute under the host path syntax (drive-letter-rooted
or root-rooted), and otherwise returns the base joined with the
candidate; the embedding is a total pure function (no I/O, no failure
mode). -/
theorem claim8_resolve_absolute_detection
    (join : String → String → String) (base cand : String) :
    (absoluteUnderHostSyntax cand = true → resolvePath join base cand = cand)
    ∧ (absoluteUnderHostSyntax cand = false → resolvePath join base cand = join base cand) := by
  have hd : driveLetterRooted cand = matchDriveRootRegex cand := by
    unfold driveLetterRooted matchDriveRootRegex
    cases hc : cand.data with
    | nil => rfl
    | cons a l =>
      cases l with
      | nil => rfl
      | cons b l2 =>
        cases l2 with
        | nil => rfl
        | cons c l3 => rfl
  have hr : rootRooted cand = startsWithSlash cand := by
    unfold rootRooted startsWithSlash
    cases hc : cand.data with
    | nil => rfl
    | cons a l => simp [List.take]
  unfold absoluteUnderHostSyntax resolvePath
  rw [hd, hr]
  constructor <;> intro h <;> simp_all

/-- C8 witness: a root-rooted candidate is returned unchanged, a
relative candidate is joined onto the base. -/
theorem claim8_witness :
    resolvePath (fun a b => a ++ "/" ++ b) "C:\\base" "/data" = "/data"
    ∧ resolvePath (fun a b => a ++ "/" ++ b) "C:\\base" "imgs" = "C:\\base" ++ "/" ++ "imgs" := by
  constructor
  · exact (claim8_resolve_absolute_detection (fun a b => a ++ "/" ++ b) "C:\\base" "/data").1
      (by decide)
  · exact (claim8_resolve_absolute_detection (fun a b => a ++ "/" ++ b) "C:\\base" "imgs").2
      (by decide)

/-- Splitting the fused crop-chain literal of the source's template
string at the comma, to align it with the rendered reference chain. -/
theorem crop_chain_split (t : String) :
    (":force_original_aspect_ratio=increase:flags=lanczos,crop=" : String) ++ t
      = ":force_original_aspect_ratio=increase:flags=lanczos" ++ ("," ++ ("crop=" ++ t)) := by
  have hlit : (":force_original_aspect_ratio=increase:flags=lanczos" : String) ++ "," ++ "crop="
      = ":force_original_aspect_ratio=increase:flags=lanczos,crop=" := rfl
  rw [← hlit, String.append_assoc, String.append_assoc]

/-- Splitting the fused pad-chain literal of the source's template
string at the comma, to align it with the rendered reference chain. -/
theorem pad_chain_split (t : String) :
    (":force_original_aspect_ratio=decrease:flags=lanczos,pad=" : String) ++ t
      = ":force_original_aspect_ratio=decrease:flags=lanczos" ++ ("," ++ ("pad=" ++ t)) := by
  have hlit : (":force_original_aspect_ratio=decrease:flags=lanczos" : String) ++ "," ++ "pad="
      = ":force_original_aspect_ratio=decrease:flags=lanczos,pad=" := rfl
  rw [← hlit, String.append_assoc, String.append_assoc]

/-- C9: the single transform expression built from a task's resize
settings matches the spec's reference: it renders exactly the reference
chain (ratio mode an aspect-preserving uniform lanczos scale by the
scale factor; fixed+crop a cover-scale followed by a center-crop;
fixed+pad a fit-scale followed by a transparent center-pad), and in the
idealised dimension semantics the ratio chain scales both sides by the
scale factor while both fixed chains produce exactly the target
width×height for every positive input size. -/
theorem claim9_transform_matches_reference (showQ : ℚ → String) (cfg : Config)
    (iw ih : ℚ) (hiw : 0 < iw) (hih : 0 < ih) :
    filterString showQ cfg = renderChain showQ (specTransformChain cfg)
    ∧ (cfg.resizeMethod = "ratio" →
        chainDims (specTransformChain cfg) (iw, ih)
          = some (iw * cfg.scaleFactor, ih * cfg.scaleFactor))
    ∧ (cfg.resizeMethod ≠ "ratio" →
        chainDims (specTransformChain cfg) (iw, ih) = some (cfg.width, cfg.height)) := by
  have hiw0 : iw ≠ 0 := ne_of_gt hiw
  have hih0 : ih ≠ 0 := ne_of_gt hih
  refine ⟨?_, ?_, ?_⟩
  · cases hm : cfg.resizeMethod == "ratio" with
    | true => simp [filterString, specTransformChain, hm, renderChain, renderStep]
    | false =>
      cases hf : cfg.fixedMode == "crop" with
      | true =>
        simp only [filterString, specTransformChain, hm, hf, Bool.false_eq_true, if_false,
          if_true, renderChain, renderStep]
        simp only [String.append_assoc]
        rw [crop_chain_split]
      | false =>
        simp only [filterString, specTransformChain, hm, hf, Bool.false_eq_true, if_false,
          renderChain, renderStep]
        simp only [String.append_assoc]
        rw [pad_chain_split]
  · intro hr
    have hm : (cfg.resizeMethod == "ratio") = true := beq_iff_eq.mpr hr
    simp [specTransformChain, hm, chainDims, stepDims]
  · intro hr
    have hm : (cfg.resizeMethod == "ratio") = false := beq_eq_false_iff_ne.mpr hr
    have hcover1 : cfg.width ≤ iw * max (cfg.width / iw) (cfg.height / ih) := by
      have h1 : cfg.width / iw ≤ max (cfg.width / iw) (cfg.height / ih) := le_max_left _ _
      have h2 := (div_le_iff₀ hiw).mp h1
      linarith
    have hcover2 : cfg.height ≤ ih * max (cfg.width / iw) (cfg.height / ih) := by
      have h1 : cfg.height / ih ≤ max (cfg.width / iw) (cfg.height / ih) := le_max_right _ _
      have h2 := (div_le_iff₀ hih).mp h1
      linarith
    have hfit1 : iw * min (cfg.width / iw) (cfg.height / ih) ≤ cfg.width := by
      have h1 : min (cfg.width / iw) (cfg.height / ih) ≤ cfg.width / iw := min_le_left _ _
      have h2 := (le_div_iff₀ hiw).mp h1
      linarith
    have hfit2 : ih * min (cfg.width / iw) (cfg.height / ih) ≤ cfg.height := by
      have h1 : min (cfg.width / iw) (cfg.height / ih) ≤ cfg.height / ih := min_le_right _ _
      have h2 := (le_div_iff₀ hih).mp h1
      linarith
    cases hf : cfg.fixedMode == "crop" with
    | true =>
      simp only [specTransformChain, hm, hf, Bool.false_eq_true, if_false, if_true,
        chainDims, List.foldl, Option.bind, stepDims]
      rw [if_neg (by simp [hiw0, hih0])]
      simp only [Option.bind, stepDims]
      rw [if_pos ⟨hcover1, hcover2⟩]
    | false =>
      simp only [specTransformChain, hm, hf, Bool.false_eq_true, if_false,
        chainDims, List.foldl, Option.bind, stepDims]
      rw [if_neg (by simp [hiw0, hih0])]
      simp only [Option.bind, stepDims]
      rw [if_pos ⟨hfit1, hfit2⟩]

/-- C9 witness: the theorem at the manual defaults (fixed 1920×1080
crop) and a concrete 400×200 input. -/
theorem claim9_witness :
    filterString showQ0 manualDefaults = renderChain showQ0 (specTransformChain manualDefaults)
    ∧ chainDims (specTransformChain manualDefaults) (400, 200) = some (1920, 1080) := by
  have h := claim9_transform_matches_reference showQ0 manualDefaults 400 200
    (by norm_num) (by norm_num)
  exact ⟨h.1, h.2.2 (by decide)⟩

end ImageToolbox
